import Mathlib

/-!
Shallow embedding of `src/swmm_tools.py`, function `parse_swmm_results`.

The function streams the lines of a SWMM `.rpt` report, extracting
continuity-error percentages, a node-flooding table and a conduit-surcharge
table, and returns either a structured result dictionary, a file-not-found
error (when the report path does not exist) or a stream-error dictionary
(when an exception escapes the line loop).

Modelling decisions:
* The file system is modelled by the argument `Option (List String)`:
  `none` means the report path does not exist, `some lines` gives the
  decoded lines of the file (the `errors='ignore'` decoding noise is
  outside the text-level model).
* Python `float` values are modelled exactly as the decimal numbers the
  report text denotes, as `num / 10 ^ dexp` (structure `PyFloat`).
* Python string operations (`split()`, `strip()`, `in`, `isdigit`,
  `replace('.','',1)`) are reimplemented over `List Char`.
* `list.sort(key=..., reverse=True)` is Python's stable descending sort;
  it is modelled by insertion sort with the "greater-or-equal key"
  relation, which is proved below to be sorted and stable.
* The `pandas` DataFrames built from the accumulated rows only rename
  columns for display; they are modelled as the underlying row lists.
-/

/-- Drop leading whitespace characters. -/
def dropWs (l : List Char) : List Char := l.dropWhile Char.isWhitespace

/-- Model of Python `s.strip()` on the character list. -/
def pyTrim (l : List Char) : List Char := ((dropWs l).reverse.dropWhile Char.isWhitespace).reverse

/-- Model of Python `not line.strip()`: the line is whitespace-only. -/
def pyIsBlank (s : String) : Bool := s.data.all Char.isWhitespace

/-- Helper for `pySplit`: scan the characters, accumulating the current token
(reversed) and emitting it at whitespace boundaries. -/
def splitWsAux : List Char → List Char → List (List Char)
  | [], acc => if acc.isEmpty then [] else [acc.reverse]
  | c :: cs, acc =>
    if c.isWhitespace then
      if acc.isEmpty then splitWsAux cs [] else acc.reverse :: splitWsAux cs []
    else splitWsAux cs (c :: acc)

/-- Model of Python `line.split()`: split on whitespace runs, no empty tokens. -/
def pySplit (s : String) : List String := (splitWsAux s.data []).map String.mk

/-- Substring occurrence on character lists. -/
def listContains (needle : List Char) : List Char → Bool
  | [] => needle.isEmpty
  | c :: cs => List.isPrefixOf needle (c :: cs) || listContains needle cs

/-- Model of Python `needle in hay` for strings. -/
def strContains (hay needle : String) : Bool := listContains needle.data hay.data

/-- Numeric value of a list of ASCII digits. -/
def digitsToNat (ds : List Char) : Nat := ds.foldl (fun n c => 10 * n + (c.toNat - 48)) 0

/-- The exact value of a finite decimal literal: `num / 10 ^ dexp`.
Used to model the Python `float` values the parser extracts; the report
values are decimal literals, which this type represents exactly. -/
structure PyFloat where
  num : Int
  dexp : Nat
deriving DecidableEq, Repr

/-- The rational value denoted by a `PyFloat`. -/
def PyFloat.toRat (x : PyFloat) : ℚ := (x.num : ℚ) / (10 : ℚ) ^ x.dexp

/-- Order on `PyFloat` by cross-multiplication (denominators are powers of 10). -/
def PyFloat.le (a b : PyFloat) : Prop := a.num * (10 : ℤ) ^ b.dexp ≤ b.num * (10 : ℤ) ^ a.dexp

instance : DecidableRel PyFloat.le := fun a b => Int.decLe _ _

/-- Value equality on `PyFloat` by cross-multiplication. -/
def PyFloat.valEq (a b : PyFloat) : Prop := a.num * (10 : ℤ) ^ b.dexp = b.num * (10 : ℤ) ^ a.dexp

instance : DecidableRel PyFloat.valEq := fun a b => Int.instDecidableEq _ _

/-- Parse an optional leading sign; returns (negative?, rest). -/
def parseSign : List Char → (Bool × List Char)
  | '-' :: r => (true, r)
  | '+' :: r => (false, r)
  | r => (false, r)

/-- Parse the optional exponent part of a float literal (empty input means
exponent 0); `none` on trailing garbage. -/
def parseExp : List Char → Option Int
  | [] => some 0
  | c :: r =>
    if c = 'e' ∨ c = 'E' then
      let p := parseSign r
      let ed := p.2.takeWhile Char.isDigit
      if ¬ed.isEmpty ∧ (p.2.dropWhile Char.isDigit).isEmpty then
        some (if p.1 then -(digitsToNat ed : Int) else (digitsToNat ed : Int))
      else none
    else none

/-- Model of Python `float(s)` on finite decimal literals: optional
surrounding whitespace, optional sign, digits with an optional decimal
point, optional exponent. (`inf`/`nan`, hexadecimal and underscore-grouped
literals are not modelled; no report value uses them.) `none` models a
`ValueError`. -/
def pyFloat (s : String) : Option PyFloat :=
  let cs := pyTrim s.data
  let p := parseSign cs
  let ip := p.2.takeWhile Char.isDigit
  let r1 := p.2.dropWhile Char.isDigit
  let fr : List Char × List Char :=
    match r1 with
    | '.' :: r2 => (r2.takeWhile Char.isDigit, r2.dropWhile Char.isDigit)
    | _ => ([], r1)
  if (ip ++ fr.1).isEmpty then none
  else
    match parseExp fr.2 with
    | none => none
    | some e =>
      let m : Int := (digitsToNat (ip ++ fr.1) : Int)
      let m := if p.1 then -m else m
      if 0 ≤ e then some ⟨m * (10 : ℤ) ^ e.toNat, fr.1.length⟩
      else some ⟨m, fr.1.length + (-e).toNat⟩

/-- Remove the first `'.'` from a character list:
model of Python `s.replace('.', '', 1)`. -/
def removeFirstDot : List Char → List Char
  | [] => []
  | c :: cs => if c = '.' then cs else c :: removeFirstDot cs

/-- Model of Python `s.replace('.', '', 1).isdigit()` (ASCII digits):
the table parsers' check that the second token is a non-negative decimal. -/
def pyDigitCheck (s : String) : Bool :=
  let t := removeFirstDot s.data
  ¬t.isEmpty ∧ t.all Char.isDigit

/-- A row of the node-flooding table
(Python dict `{"node", "MaxFloodingRate", "TotalFloodVol"}`). -/
structure FloodRec where
  node : String
  maxFloodingRate : PyFloat
  totalFloodVol : PyFloat
deriving DecidableEq, Repr

/-- A row of the conduit-surcharge table
(Python dict `{"link", "HoursSurcharged", "HoursAboveFullNormal"}`). -/
structure SurchRec where
  link : String
  hoursSurcharged : PyFloat
  hoursAboveFullNormal : PyFloat
deriving DecidableEq, Repr

def contLabel : String := "Continuity Error (%)"

def floodMarker : String := "Node Flooding Summary"

def surchMarker : String := "Conduit Surcharge Summary"

/-- The flooding-table row extractor (`swmm_tools.py` lines 58–67): at least
6 tokens, token 1 passes the decimal check, token 0 is not the header label
`"Node"`; then token 2 and token 5 must both parse as floats (a failure is
the caught `ValueError`, yielding `none`, i.e. a silent skip). -/
def floodExtract (line : String) : Option FloodRec :=
  let parts := pySplit line
  if 6 ≤ parts.length ∧ pyDigitCheck (parts.getD 1 "") = true ∧ parts.getD 0 "" ≠ "Node" then
    match pyFloat (parts.getD 2 ""), pyFloat (parts.getD 5 "") with
    | some mr, some tv => some ⟨parts.getD 0 "", mr, tv⟩
    | _, _ => none
  else none

/-- The surcharge-table row extractor (`swmm_tools.py` lines 80–89): at least
5 tokens, token 1 passes the decimal check, token 0 is not `"Conduit"`;
then token 1 and token 3 must both parse as floats. -/
def surchExtract (line : String) : Option SurchRec :=
  let parts := pySplit line
  if 5 ≤ parts.length ∧ pyDigitCheck (parts.getD 1 "") = true ∧ parts.getD 0 "" ≠ "Conduit" then
    match pyFloat (parts.getD 1 ""), pyFloat (parts.getD 3 "") with
    | some hs, some hf => some ⟨parts.getD 0 "", hs, hf⟩
    | _, _ => none
  else none

/-- The mutable state of the line loop of `parse_swmm_results`.
`err` models a `ValueError` having escaped (caught only by the outer
`except Exception`), carrying the offending token. -/
structure PState where
  contRunoff : Option PyFloat
  contRouting : Option PyFloat
  inFlooding : Bool
  inSurcharge : Bool
  flooded : List FloodRec
  surcharged : List SurchRec
  err : Option String
deriving DecidableEq, Repr

def initState : PState := ⟨none, none, false, false, [], [], none⟩

/-- Continuity-error detection (`swmm_tools.py` lines 39–45): on a line
containing the label, `float(parts[-1])` is taken — unguarded, so a parse
failure raises (modelled by setting `err`); otherwise the first value fills
the runoff slot, the second the routing slot, later ones are ignored. -/
def contStep (s : PState) (line : String) : PState :=
  if strContains line contLabel then
    let parts := pySplit line
    match pyFloat (parts.getLastD "") with
    | none => { s with err := some (parts.getLastD "") }
    | some v =>
      if s.contRunoff.isNone then { s with contRunoff := some v }
      else if s.contRouting.isNone then { s with contRouting := some v }
      else s
  else s

/-- The body run while `in_flooding_table` (`swmm_tools.py` lines 52–67).
The returned Bool is the `continue` taken on the blank-line exit. -/
def floodBlock (s : PState) (line : String) : PState × Bool :=
  if pyIsBlank line ∧ s.flooded ≠ [] then ({ s with inFlooding := false }, true)
  else
    match floodExtract line with
    | some r => ({ s with flooded := s.flooded ++ [r] }, false)
    | none => (s, false)

/-- The body run while `in_surcharge_table` (`swmm_tools.py` lines 75–89). -/
def surchBlock (s : PState) (line : String) : PState :=
  if pyIsBlank line ∧ s.surcharged ≠ [] then { s with inSurcharge := false }
  else
    match surchExtract line with
    | some r => { s with surcharged := s.surcharged ++ [r] }
    | none => s

/-- One iteration of the line loop (`swmm_tools.py` lines 34–89), in source
order: continuity check (which can raise), flooding-table marker
(`continue`), flooding-table body (whose blank-line exit `continue`s),
surcharge-table marker (which also clears the flooding flag, `continue`),
surcharge-table body. Once `err` is set no further line has any effect
(the exception aborts the loop). -/
def lineStep (s : PState) (line : String) : PState :=
  if s.err.isSome then s
  else
    let s1 := contStep s line
    if s1.err.isSome then s1
    else if strContains line floodMarker then { s1 with inFlooding := true }
    else
      let fb := if s1.inFlooding then floodBlock s1 line else (s1, false)
      if fb.2 then fb.1
      else if strContains line surchMarker then { fb.1 with inSurcharge := true, inFlooding := false }
      else if fb.1.inSurcharge then surchBlock fb.1 line
      else fb.1

/-- Run the line loop over the whole report. -/
def runLines (lines : List String) : PState := lines.foldl lineStep initState

/-- Descending comparison of flooding rows by total flood volume. -/
def floodGe (a b : FloodRec) : Prop := PyFloat.le b.totalFloodVol a.totalFloodVol

instance : DecidableRel floodGe := fun a b => inferInstanceAs (Decidable (PyFloat.le _ _))

/-- Descending comparison of surcharge rows by hours surcharged. -/
def surchGe (a b : SurchRec) : Prop := PyFloat.le b.hoursSurcharged a.hoursSurcharged

instance : DecidableRel surchGe := fun a b => inferInstanceAs (Decidable (PyFloat.le _ _))

/-- Model of `flooded_nodes.sort(key=lambda x: x["TotalFloodVol"], reverse=True)`:
Python's sort is stable, hence it is insertion sort under `floodGe`. -/
def sortFlood (l : List FloodRec) : List FloodRec := List.insertionSort floodGe l

/-- Model of `surcharged_links.sort(key=lambda x: x["HoursSurcharged"], reverse=True)`. -/
def sortSurch (l : List SurchRec) : List SurchRec := List.insertionSort surchGe l

/-- The success dictionary of `parse_swmm_results` (lines 106–114); the two
DataFrames are `none` exactly when their source list is empty (lines 92–104). -/
structure SwmmResult where
  continuity_error_runoff_percent : Option PyFloat
  continuity_error_routing_percent : Option PyFloat
  top_flooded_nodes : Option (List FloodRec)
  top_surcharged_conduits : Option (List SurchRec)
  raw_flooded_list : List FloodRec
  raw_surcharged_list : List SurchRec
deriving DecidableEq, Repr

/-- The three shapes of return value of `parse_swmm_results`:
the file-not-found dictionary (line 16), the stream-error dictionary
(line 117, carrying the token whose `float` conversion raised), and the
success dictionary. -/
inductive ParseOutcome where
  | fileNotFound : ParseOutcome
  | streamError (tok : String) : ParseOutcome
  | success (r : SwmmResult) : ParseOutcome
deriving DecidableEq, Repr

def ParseOutcome.isSuccess : ParseOutcome → Bool
  | .success _ => true
  | _ => false

/-- The function `parse_swmm_results(rpt_path, inp_path)`. The report file is
`none` when the path does not exist; `inp_path` is accepted and never used
(line 5). -/
def parse_swmm_results (rpt_lines : Option (List String)) (inp_path : Option String) : ParseOutcome :=
  match rpt_lines with
  | none => .fileNotFound
  | some lines =>
    let s := runLines lines
    match s.err with
    | some tok => .streamError tok
    | none =>
      let fl := sortFlood s.flooded
      let su := sortSurch s.surcharged
      .success
        { continuity_error_runoff_percent := s.contRunoff
          continuity_error_routing_percent := s.contRouting
          top_flooded_nodes := if s.flooded = [] then none else some (fl.take 5)
          top_surcharged_conduits := if s.surcharged = [] then none else some (su.take 5)
          raw_flooded_list := fl.take 5
          raw_surcharged_list := su.take 5 }

/-- The values of the continuity-label lines whose trailing token parses,
in file order (specification device for the positional first/second rule). -/
def contValues (lines : List String) : List PyFloat :=
  lines.filterMap (fun l => if strContains l contLabel then pyFloat ((pySplit l).getLastD "") else none)

/-! ### Helper lemmas -/

lemma PyFloat.le_rat {a b : PyFloat} : PyFloat.le a b ↔ a.toRat ≤ b.toRat := by
  unfold PyFloat.le PyFloat.toRat
  rw [div_le_div_iff₀ (by positivity) (by positivity)]
  constructor
  · intro h; exact_mod_cast h
  · intro h; exact_mod_cast h

lemma PyFloat.valEq_rat {a b : PyFloat} : PyFloat.valEq a b ↔ a.toRat = b.toRat := by
  unfold PyFloat.valEq PyFloat.toRat
  rw [div_eq_div_iff (by positivity) (by positivity)]
  constructor
  · intro h; exact_mod_cast h
  · intro h; exact_mod_cast h

instance : IsTotal FloodRec floodGe :=
  ⟨fun a b => by
    unfold floodGe
    rcases le_total a.totalFloodVol.toRat b.totalFloodVol.toRat with h | h
    · exact Or.inr (PyFloat.le_rat.mpr h)
    · exact Or.inl (PyFloat.le_rat.mpr h)⟩

instance : IsTrans FloodRec floodGe :=
  ⟨fun a b c hab hbc => by
    unfold floodGe at *
    exact PyFloat.le_rat.mpr (le_trans (PyFloat.le_rat.mp hbc) (PyFloat.le_rat.mp hab))⟩

instance : IsTotal SurchRec surchGe :=
  ⟨fun a b => by
    unfold surchGe
    rcases le_total a.hoursSurcharged.toRat b.hoursSurcharged.toRat with h | h
    · exact Or.inr (PyFloat.le_rat.mpr h)
    · exact Or.inl (PyFloat.le_rat.mpr h)⟩

instance : IsTrans SurchRec surchGe :=
  ⟨fun a b c hab hbc => by
    unfold surchGe at *
    exact PyFloat.le_rat.mpr (le_trans (PyFloat.le_rat.mp hbc) (PyFloat.le_rat.mp hab))⟩

/-- Filtering commutes with `orderedInsert` when the inserted element satisfies
the filter and everything not `r`-below it fails the filter. -/
lemma filter_orderedInsert_pos {α : Type} {r : α → α → Prop} [DecidableRel r] {p : α → Bool}
    {x : α} (hx : p x = true) (hcomp : ∀ y, ¬r x y → p y = false) :
    ∀ l : List α, (List.orderedInsert r x l).filter p = x :: l.filter p := by
  intro l
  induction l with
  | nil => simp [List.orderedInsert, hx]
  | cons y ys ih =>
    by_cases hr : r x y
    · simp [List.orderedInsert, hr, List.filter_cons, hx]
    · have hy : p y = false := hcomp y hr
      simp [List.orderedInsert, hr, List.filter_cons, hy, ih]

/-- Filtering commutes with `orderedInsert` when the inserted element fails
the filter. -/
lemma filter_orderedInsert_neg {α : Type} {r : α → α → Prop} [DecidableRel r] {p : α → Bool}
    {x : α} (hx : p x = false) :
    ∀ l : List α, (List.orderedInsert r x l).filter p = l.filter p := by
  intro l
  induction l with
  | nil => simp [List.orderedInsert, hx]
  | cons y ys ih =>
    by_cases hr : r x y
    · simp [List.orderedInsert, hr, List.filter_cons, hx]
    · simp [List.orderedInsert, hr, List.filter_cons, ih]

/-- Stability of insertion sort, filter form: the elements of one "tie class"
(a predicate closed downward in the sense of `hcomp`) appear in the sorted
output in their original input order. -/
lemma filter_insertionSort {α : Type} {r : α → α → Prop} [DecidableRel r] {p : α → Bool}
    (hcomp : ∀ x y, p x = true → ¬r x y → p y = false) :
    ∀ l : List α, (List.insertionSort r l).filter p = l.filter p := by
  intro l
  induction l with
  | nil => rfl
  | cons x xs ih =>
    by_cases hx : p x = true
    · rw [List.insertionSort, filter_orderedInsert_pos hx (fun y => hcomp x y hx), ih,
        List.filter_cons]
      simp [hx]
    · have hx' : p x = false := by simpa using hx
      rw [List.insertionSort, filter_orderedInsert_neg hx', ih, List.filter_cons]
      simp [hx']

lemma splitWsAux_all_ws {l : List Char} (h : l.all Char.isWhitespace = true) :
    splitWsAux l [] = [] := by
  induction l with
  | nil => rfl
  | cons c cs ih =>
    simp only [List.all_cons, Bool.and_eq_true] at h
    simp [splitWsAux, h.1, ih h.2]

lemma pySplit_blank {line : String} (h : pyIsBlank line = true) : pySplit line = [] := by
  unfold pySplit
  rw [splitWsAux_all_ws h]
  rfl

lemma listContains_all_ws {n l : List Char} (hl : l.all Char.isWhitespace = true)
    (hc : listContains n l = true) : n.all Char.isWhitespace = true := by
  induction l with
  | nil =>
    simp only [listContains, List.isEmpty_iff] at hc
    simp [hc]
  | cons c cs ih =>
    simp only [listContains, Bool.or_eq_true] at hc
    simp only [List.all_cons, Bool.and_eq_true] at hl
    rcases hc with hc | hc
    · have hpre : n <+: c :: cs := by
        have := List.isPrefixOf_iff_prefix.mp hc
        exact this
      rw [List.all_eq_true] at *
      intro a ha
      have : a ∈ c :: cs := hpre.subset ha
      rcases List.mem_cons.mp this with rfl | hmem
      · exact hl.1
      · exact hl.2 a hmem
    · exact ih hl.2 hc

lemma strContains_blank {line needle : String} (h : pyIsBlank line = true)
    (hn : needle.data.all Char.isWhitespace = false) : strContains line needle = false := by
  cases hc : strContains line needle
  · rfl
  · exact absurd (listContains_all_ws h hc) (by simp [hn])

lemma blank_no_markers {line : String} (h : pyIsBlank line = true) :
    strContains line contLabel = false ∧ strContains line floodMarker = false ∧
      strContains line surchMarker = false :=
  ⟨strContains_blank h (by decide), strContains_blank h (by decide),
    strContains_blank h (by decide)⟩

lemma floodExtract_of_split_nil {line : String} (h : pySplit line = []) :
    floodExtract line = none := by
  unfold floodExtract
  rw [h]
  decide

lemma surchExtract_of_split_nil {line : String} (h : pySplit line = []) :
    surchExtract line = none := by
  unfold surchExtract
  rw [h]
  decide

example : pyFloat "-0.029" = some ⟨-29, 3⟩ := by decide

example : pyFloat "2.0" = some ⟨20, 1⟩ := by decide

example : pyFloat "N/A" = none := by decide

example : pyFloat " 1e3 " = some ⟨1000, 0⟩ := by decide

example : pyFloat "5e-2" = some ⟨5, 2⟩ := by decide

example : pySplit "  a  bc d " = ["a", "bc", "d"] := by decide

example : strContains "xx Continuity Error (%) .. 5" contLabel = true := by decide

example : pyDigitCheck "1.5" = true ∧ pyDigitCheck "Hours" = false := by decide

example :
    parse_swmm_results (some ["  Continuity Error (%) ..... -0.029",
      "  Continuity Error (%) ..... 0.441"]) none =
    .success ⟨some ⟨-29, 3⟩, some ⟨441, 3⟩, none, none, [], []⟩ := by decide

example :
    parse_swmm_results (some ["Continuity Error (%) ..... N/A"]) none = .streamError "N/A" := by
  decide

example :
    (runLines ["Node Flooding Summary", "J12  5.00  12.5  0  0  0.250", ""]).flooded =
    [⟨"J12", ⟨125, 1⟩, ⟨250, 3⟩⟩] := by decide

/-- Case split on the outcome of a run over an existing file: it is a stream
error (exactly when the final state holds an error) or a success. -/
lemma parse_some_cases (lines : List String) (inp : Option String) :
    (∃ t, (runLines lines).err = some t ∧ parse_swmm_results (some lines) inp = .streamError t) ∨
    ((runLines lines).err = none ∧
      ∃ er, parse_swmm_results (some lines) inp = .success er) := by
  cases he : (runLines lines).err with
  | some t => exact Or.inl ⟨t, rfl, by simp only [parse_swmm_results, he]⟩
  | none =>
    refine Or.inr ⟨rfl, ?_⟩
    simp only [parse_swmm_results, he]
    exact ⟨_, rfl⟩

/-- The success outcome, written out from the final loop state. -/
lemma parse_success_eq {lines : List String} {inp : Option String} {er : SwmmResult}
    (h : parse_swmm_results (some lines) inp = .success er) :
    (runLines lines).err = none ∧
    er = { continuity_error_runoff_percent := (runLines lines).contRunoff
           continuity_error_routing_percent := (runLines lines).contRouting
           top_flooded_nodes := if (runLines lines).flooded = [] then none
             else some ((sortFlood (runLines lines).flooded).take 5)
           top_surcharged_conduits := if (runLines lines).surcharged = [] then none
             else some ((sortSurch (runLines lines).surcharged).take 5)
           raw_flooded_list := (sortFlood (runLines lines).flooded).take 5
           raw_surcharged_list := (sortSurch (runLines lines).surcharged).take 5 } := by
  cases he : (runLines lines).err with
  | some t =>
    simp only [parse_swmm_results, he] at h
    exact absurd h (by simp)
  | none =>
    simp only [parse_swmm_results, he] at h
    exact ⟨rfl, (ParseOutcome.success.injEq _ _ ▸ h).symm⟩

/-- The flooding-table body never touches the continuity slots, the error
slot or the surcharge accumulator. -/
lemma floodBlock_frame (s : PState) (line : String) :
    (floodBlock s line).1.contRunoff = s.contRunoff ∧
    (floodBlock s line).1.contRouting = s.contRouting ∧
    (floodBlock s line).1.err = s.err ∧
    (floodBlock s line).1.surcharged = s.surcharged ∧
    (floodBlock s line).1.inSurcharge = s.inSurcharge := by
  unfold floodBlock
  split
  · exact ⟨rfl, rfl, rfl, rfl, rfl⟩
  · cases floodExtract line <;> simp

/-- The surcharge-table body never touches the continuity slots, the error
slot or the flooding accumulator. -/
lemma surchBlock_frame (s : PState) (line : String) :
    (surchBlock s line).contRunoff = s.contRunoff ∧
    (surchBlock s line).contRouting = s.contRouting ∧
    (surchBlock s line).err = s.err ∧
    (surchBlock s line).flooded = s.flooded ∧
    (surchBlock s line).inFlooding = s.inFlooding := by
  unfold surchBlock
  split
  · exact ⟨rfl, rfl, rfl, rfl, rfl⟩
  · cases surchExtract line <;> simp

/-- After the continuity check, no part of `lineStep` changes the continuity
slots or the error slot: they are exactly those of `contStep`. -/
lemma lineStep_cont_fields (s : PState) (line : String) (he : s.err = none) :
    (lineStep s line).contRunoff = (contStep s line).contRunoff ∧
    (lineStep s line).contRouting = (contStep s line).contRouting ∧
    (lineStep s line).err = (contStep s line).err := by
  unfold lineStep
  have hs : s.err.isSome = false := by simp [he]
  by_cases h1 : (contStep s line).err.isSome = true
  · simp [hs, h1]
  · by_cases hm : strContains line floodMarker = true
    · simp [hs, h1, hm]
    · by_cases hf : (contStep s line).inFlooding = true
      · obtain ⟨f1, f2, f3, -, -⟩ := floodBlock_frame (contStep s line) line
        by_cases h2 : (floodBlock (contStep s line) line).2 = true
        · simp [hs, h1, hm, hf, h2, f1, f2, f3]
        · by_cases hsm : strContains line surchMarker = true
          · simp [hs, h1, hm, hf, h2, hsm, f1, f2, f3]
          · by_cases hsu : (floodBlock (contStep s line) line).1.inSurcharge = true
            · obtain ⟨g1, g2, g3, -, -⟩ :=
                surchBlock_frame (floodBlock (contStep s line) line).1 line
              simp [hs, h1, hm, hf, h2, hsm, hsu, f1, f2, f3, g1, g2, g3]
            · simp [hs, h1, hm, hf, h2, hsm, hsu, f1, f2, f3]
      · by_cases hsm : strContains line surchMarker = true
        · simp [hs, h1, hm, hf, hsm]
        · by_cases hsu : (contStep s line).inSurcharge = true
          · obtain ⟨g1, g2, g3, -, -⟩ := surchBlock_frame (contStep s line) line
            simp [hs, h1, hm, hf, hsm, hsu, g1, g2, g3]
          · simp [hs, h1, hm, hf, hsm, hsu]

/-- On a blank line the whole `lineStep` is the two guarded table exits. -/
lemma lineStep_blank (s : PState) (line : String) (he : s.err = none)
    (hb : pyIsBlank line = true) :
    lineStep s line =
      if s.inFlooding = true ∧ s.flooded ≠ [] then { s with inFlooding := false }
      else if s.inSurcharge = true ∧ s.surcharged ≠ [] then { s with inSurcharge := false }
      else s := by
  obtain ⟨hcl, hfm, hsm⟩ := blank_no_markers hb
  have hfe : floodExtract line = none := floodExtract_of_split_nil (pySplit_blank hb)
  have hse : surchExtract line = none := surchExtract_of_split_nil (pySplit_blank hb)
  have hcs : contStep s line = s := by simp [contStep, hcl]
  unfold lineStep
  rw [hcs]
  have hs : s.err.isSome = false := by simp [he]
  simp only [hs, Bool.false_eq_true, if_false, hfm, hsm]
  by_cases hf : s.inFlooding = true
  · by_cases hfl : s.flooded = []
    · have hfb : floodBlock s line = (s, false) := by simp [floodBlock, hfl, hfe]
      simp only [hf, if_true, hfb, if_false]
      by_cases hsu : s.inSurcharge = true
      · by_cases hsl : s.surcharged = []
        · have : surchBlock s line = s := by simp [surchBlock, hsl, hse]
          simp [hsu, this, hf, hfl, hsl]
        · have : surchBlock s line = { s with inSurcharge := false } := by
            simp [surchBlock, hb, hsl]
          simp [hsu, this, hf, hfl, hsl]
      · simp [hsu, hf, hfl]
    · have hfb : floodBlock s line = ({ s with inFlooding := false }, true) := by
        simp [floodBlock, hb, hfl]
      simp [hf, hfb, hfl]
  · simp only [hf, Bool.false_eq_true, if_false]
    by_cases hsu : s.inSurcharge = true
    · by_cases hsl : s.surcharged = []
      · have : surchBlock s line = s := by simp [surchBlock, hsl, hse]
        simp [hsu, this, hf, hsl]
      · have : surchBlock s line = { s with inSurcharge := false } := by
          simp [surchBlock, hb, hsl]
        simp [hsu, this, hf, hsl]
    · simp [hsu, hf]

/-- The continuity slots after feeding a list of parsed values into the
fill-first-then-second rule of lines 42–45. -/
def contFill : Option PyFloat → Option PyFloat → List PyFloat → Option PyFloat × Option PyFloat
  | a, b, [] => (a, b)
  | none, b, v :: vs => contFill (some v) b vs
  | some a, none, v :: vs => contFill (some a) (some v) vs
  | some a, some b, _ :: _ => (some a, some b)

lemma contFill_nil (a b : Option PyFloat) : contFill a b [] = (a, b) := by
  cases a <;> cases b <;> rfl

lemma contFill_cons_none (b : Option PyFloat) (v : PyFloat) (vs : List PyFloat) :
    contFill none b (v :: vs) = contFill (some v) b vs := by
  cases b <;> rfl

lemma contFill_some_some (a b : PyFloat) (vs : List PyFloat) :
    contFill (some a) (some b) vs = (some a, some b) := by
  cases vs <;> rfl

lemma contFill_some_none (a : PyFloat) (vs : List PyFloat) :
    contFill (some a) none vs = (some a, vs.head?) := by
  cases vs with
  | nil => rfl
  | cons v vs' =>
    rw [show contFill (some a) none (v :: vs') = contFill (some a) (some v) vs' from rfl,
      contFill_some_some]
    rfl

lemma contFill_none_none (vs : List PyFloat) :
    contFill none none vs = (vs.head?, vs.tail.head?) := by
  cases vs with
  | nil => rfl
  | cons v vs' =>
    rw [contFill_cons_none, contFill_some_none]
    rfl

/-- Main loop invariant for the continuity figures: as long as every
label line's trailing token parses, the loop never errors and the two slots
are the fill of the parsed values in file order. -/
lemma cont_fold (lines : List String) : ∀ s : PState, s.err = none →
    (∀ l ∈ lines, strContains l contLabel = true →
      (pyFloat ((pySplit l).getLastD "")).isSome = true) →
    (lines.foldl lineStep s).err = none ∧
    ((lines.foldl lineStep s).contRunoff, (lines.foldl lineStep s).contRouting) =
      contFill s.contRunoff s.contRouting (contValues lines) := by
  induction lines with
  | nil =>
    intro s he _
    exact ⟨he, by rw [List.foldl_nil, contValues, List.filterMap_nil, contFill_nil]⟩
  | cons l ls ih =>
    intro s he h
    have hl := h l (List.mem_cons_self l ls)
    have hrest : ∀ x ∈ ls, strContains x contLabel = true →
        (pyFloat ((pySplit x).getLastD "")).isSome = true :=
      fun x hx => h x (List.mem_cons_of_mem l hx)
    obtain ⟨f1, f2, f3⟩ := lineStep_cont_fields s l he
    simp only [List.foldl_cons]
    by_cases hc : strContains l contLabel = true
    · obtain ⟨v, hv⟩ := Option.isSome_iff_exists.mp (hl hc)
      have hcv : contValues (l :: ls) = v :: contValues ls := by
        simp only [contValues, List.filterMap_cons, hc, if_true, hv]
      have hcs : contStep s l = if s.contRunoff.isNone then { s with contRunoff := some v }
          else if s.contRouting.isNone then { s with contRouting := some v } else s := by
        simp only [contStep, hc, if_true, hv]
      rw [hcv]
      cases hr : s.contRunoff with
      | none =>
        have h1 : (lineStep s l).contRunoff = some v := by rw [f1, hcs]; simp [hr]
        have h2 : (lineStep s l).contRouting = s.contRouting := by rw [f2, hcs]; simp [hr]
        have h3 : (lineStep s l).err = none := by rw [f3, hcs]; simp [hr, he]
        have hih := ih (lineStep s l) h3 hrest
        refine ⟨hih.1, ?_⟩
        rw [hih.2, h1, h2, contFill_cons_none]
      | some a =>
        cases ht : s.contRouting with
        | none =>
          have h1 : (lineStep s l).contRunoff = some a := by rw [f1, hcs]; simp [hr, ht]
          have h2 : (lineStep s l).contRouting = some v := by rw [f2, hcs]; simp [hr, ht]
          have h3 : (lineStep s l).err = none := by rw [f3, hcs]; simp [hr, ht, he]
          have hih := ih (lineStep s l) h3 hrest
          refine ⟨hih.1, ?_⟩
          rw [hih.2, h1, h2,
            show contFill (some a) none (v :: contValues ls)
              = contFill (some a) (some v) (contValues ls) from rfl]
        | some b =>
          have h1 : (lineStep s l).contRunoff = some a := by rw [f1, hcs]; simp [hr, ht]
          have h2 : (lineStep s l).contRouting = some b := by rw [f2, hcs]; simp [hr, ht]
          have h3 : (lineStep s l).err = none := by rw [f3, hcs]; simp [hr, ht, he]
          have hih := ih (lineStep s l) h3 hrest
          refine ⟨hih.1, ?_⟩
          rw [hih.2, h1, h2, contFill_some_some, contFill_some_some]
    · have hcs : contStep s l = s := by simp [contStep, hc]
      have hcv : contValues (l :: ls) = contValues ls := by simp [contValues, hc]
      have h1 : (lineStep s l).contRunoff = s.contRunoff := by rw [f1, hcs]
      have h2 : (lineStep s l).contRouting = s.contRouting := by rw [f2, hcs]
      have h3 : (lineStep s l).err = none := by rw [f3, hcs]; exact he
      have hih := ih (lineStep s l) h3 hrest
      rw [hcv]
      exact ⟨hih.1, by rw [hih.2, h1, h2]⟩

/-! ### Claim theorems -/

/-- C1: the claim says a continuity-label line whose trailing token does not
parse as a float is skipped and extraction still succeeds.  The code instead
lets the `ValueError` from `float(parts[-1])` escape to the blanket
`except Exception`, so the invocation returns the stream-error dictionary —
a failure outcome — on this one-line report. -/
theorem C1_contLine_parse_failure_aborts :
    parse_swmm_results (some ["  Continuity Error (%) ..... N/A"]) none =
      .streamError "N/A" ∧
    (parse_swmm_results (some ["  Continuity Error (%) ..... N/A"]) none).isSuccess = false := by
  decide

/-- C8: a missing report file yields exactly the file-not-found outcome,
an existing file never yields it, and every outcome is one of
file-not-found, stream-error, or success (with the result data carried only
by the success constructor). -/
theorem C8_failure_surface :
    (∀ inp, parse_swmm_results none inp = .fileNotFound) ∧
    (∀ lines inp, parse_swmm_results (some lines) inp ≠ .fileNotFound) ∧
    (∀ rpt inp, parse_swmm_results rpt inp = .fileNotFound ∨
      (∃ t, parse_swmm_results rpt inp = .streamError t) ∨
      (∃ er, parse_swmm_results rpt inp = .success er)) := by
  refine ⟨fun _ => rfl, ?_, ?_⟩
  · intro lines inp h
    rcases parse_some_cases lines inp with ⟨t, _, hp⟩ | ⟨_, er, hp⟩ <;>
      rw [hp] at h <;> exact ParseOutcome.noConfusion h
  · intro rpt inp
    cases rpt with
    | none => exact Or.inl rfl
    | some lines =>
      rcases parse_some_cases lines inp with ⟨t, _, hp⟩ | ⟨_, er, hp⟩
      · exact Or.inr (Or.inl ⟨t, hp⟩)
      · exact Or.inr (Or.inr ⟨er, hp⟩)

/-- Witness for C8 at concrete inputs. -/
theorem C8_witness :
    parse_swmm_results none none = .fileNotFound ∧
    parse_swmm_results (some ["abc"]) none ≠ .fileNotFound :=
  ⟨C8_failure_surface.1 none, C8_failure_surface.2.1 ["abc"] none⟩

/-- C9: the optional companion `inp_path` argument is accepted and ignored:
any two values of it (including absent, `none`) give equal outcomes on every
report input. -/
theorem C9_inp_path_ignored (rpt : Option (List String)) (a b : Option String) :
    parse_swmm_results rpt a = parse_swmm_results rpt b := rfl

/-- C10: the flooding-table marker does not force an exit from the
surcharge-table state: after `"Conduit Surcharge Summary"` then
`"Node Flooding Summary"` both flags are set, and the following data row
(6 tokens, numeric second token, identifier equal to neither header label)
is recorded both as a flooding row and as a surcharge row. -/
theorem C10_overlapping_tables :
    (runLines ["Conduit Surcharge Summary", "Node Flooding Summary"]).inFlooding = true ∧
    (runLines ["Conduit Surcharge Summary", "Node Flooding Summary"]).inSurcharge = true ∧
    (runLines ["Conduit Surcharge Summary", "Node Flooding Summary",
        "X 1.0 2.0 3.0 4.0 5.0"]).flooded = [⟨"X", ⟨20, 1⟩, ⟨50, 1⟩⟩] ∧
    (runLines ["Conduit Surcharge Summary", "Node Flooding Summary",
        "X 1.0 2.0 3.0 4.0 5.0"]).surcharged = [⟨"X", ⟨10, 1⟩, ⟨30, 1⟩⟩] := by
  decide

/-- C5: in the flooding-table state a line yields a `FloodRec` exactly when it
has at least 6 whitespace tokens, token 1 passes the non-negative-decimal
check, token 0 is not the header label `"Node"`, and tokens 2 and 5 both
parse as floats; on acceptance token 0 is the node id, token 2 the peak
rate, token 5 the total volume; and a rejected line leaves the accumulators
and the error slot untouched (silent skip, never fatal). -/
theorem C5_flood_row_extractor (line : String) :
    ((floodExtract line).isSome = true ↔
      6 ≤ (pySplit line).length ∧ pyDigitCheck ((pySplit line).getD 1 "") = true ∧
        (pySplit line).getD 0 "" ≠ "Node" ∧ (pyFloat ((pySplit line).getD 2 "")).isSome = true ∧
        (pyFloat ((pySplit line).getD 5 "")).isSome = true) ∧
    (∀ r : FloodRec, floodExtract line = some r →
      r.node = (pySplit line).getD 0 "" ∧
      pyFloat ((pySplit line).getD 2 "") = some r.maxFloodingRate ∧
      pyFloat ((pySplit line).getD 5 "") = some r.totalFloodVol) ∧
    (∀ s : PState, floodExtract line = none →
      (floodBlock s line).1.flooded = s.flooded ∧ (floodBlock s line).1.err = s.err ∧
      (floodBlock s line).1.surcharged = s.surcharged) := by
  refine ⟨?_, ?_, ?_⟩
  · by_cases hc : 6 ≤ (pySplit line).length ∧ pyDigitCheck ((pySplit line).getD 1 "") = true ∧
        (pySplit line).getD 0 "" ≠ "Node"
    · simp only [floodExtract]
      rw [if_pos hc]
      cases h2 : pyFloat ((pySplit line).getD 2 "") with
      | none => exact iff_of_false (by simp) (fun h => by simp at h)
      | some mr =>
        cases h5 : pyFloat ((pySplit line).getD 5 "") with
        | none => exact iff_of_false (by simp) (fun h => by simp at h)
        | some tv => exact iff_of_true rfl ⟨hc.1, hc.2.1, hc.2.2, rfl, rfl⟩
    · simp only [floodExtract]
      rw [if_neg hc]
      exact iff_of_false (by simp) (fun h => hc ⟨h.1, h.2.1, h.2.2.1⟩)
  · intro r hr
    by_cases hc : 6 ≤ (pySplit line).length ∧ pyDigitCheck ((pySplit line).getD 1 "") = true ∧
        (pySplit line).getD 0 "" ≠ "Node"
    · simp only [floodExtract] at hr
      rw [if_pos hc] at hr
      cases h2 : pyFloat ((pySplit line).getD 2 "") with
      | none => rw [h2] at hr; exact Option.noConfusion hr
      | some mr =>
        cases h5 : pyFloat ((pySplit line).getD 5 "") with
        | none => rw [h2, h5] at hr; exact Option.noConfusion hr
        | some tv =>
          rw [h2, h5] at hr
          injection hr with h
          subst h
          exact ⟨rfl, rfl, rfl⟩
    · simp only [floodExtract] at hr
      rw [if_neg hc] at hr
      exact Option.noConfusion hr
  · intro s hn
    unfold floodBlock
    by_cases hbk : pyIsBlank line = true ∧ s.flooded ≠ []
    · rw [if_pos hbk]
      exact ⟨rfl, rfl, rfl⟩
    · rw [if_neg hbk, hn]
      exact ⟨rfl, rfl, rfl⟩

/-- Witness for C5: one accepted row, and a silently rejected row whose
sixth token fails the float conversion. -/
theorem C5_witness :
    (floodExtract "J12  5.00  12.5  0  0  0.250").isSome = true ∧
    (floodBlock initState "J44  3.20  18.25 0 0  bad").1.flooded = initState.flooded :=
  ⟨(C5_flood_row_extractor "J12  5.00  12.5  0  0  0.250").1.mpr (by decide),
    ((C5_flood_row_extractor "J44  3.20  18.25 0 0  bad").2.2 initState (by decide)).1⟩

/-- C6: on a blank line, a table state is left only if that table's
accumulator is nonempty; with an empty accumulator the machine stays in the
table (and, being in the flooding table, collects a row arriving after the
premature blank, as the witness shows). -/
theorem C6_blank_line_guard (s : PState) (line : String)
    (he : s.err = none) (hb : pyIsBlank line = true) :
    (s.inFlooding = true → (lineStep s line).inFlooding = false → s.flooded ≠ []) ∧
    (s.inFlooding = true → s.flooded = [] →
      (lineStep s line).inFlooding = true ∧ (lineStep s line).flooded = []) ∧
    (s.inFlooding = true → s.flooded ≠ [] → (lineStep s line).inFlooding = false) ∧
    (s.inSurcharge = true → (lineStep s line).inSurcharge = false → s.surcharged ≠ []) ∧
    (s.inSurcharge = true → s.surcharged = [] →
      (lineStep s line).inSurcharge = true ∧ (lineStep s line).surcharged = []) := by
  rw [lineStep_blank s line he hb]
  by_cases hf : s.inFlooding = true ∧ s.flooded ≠ []
  · rw [if_pos hf]
    exact ⟨fun _ _ => hf.2, fun _ h => absurd h hf.2, fun _ _ => rfl,
      fun h4 h5 => Bool.noConfusion (h4.symm.trans h5),
      fun h4 h5 => ⟨h4, h5⟩⟩
  · rw [if_neg hf]
    by_cases hs2 : s.inSurcharge = true ∧ s.surcharged ≠ []
    · rw [if_pos hs2]
      exact ⟨fun h1 h2 => Bool.noConfusion (h1.symm.trans h2),
        fun h1 h2 => ⟨h1, h2⟩,
        fun h1 h2 => absurd ⟨h1, h2⟩ hf,
        fun _ _ => hs2.2,
        fun _ h => absurd h hs2.2⟩
    · rw [if_neg hs2]
      exact ⟨fun h1 h2 => Bool.noConfusion (h1.symm.trans h2),
        fun h1 h2 => ⟨h1, h2⟩,
        fun h1 h2 => absurd ⟨h1, h2⟩ hf,
        fun h4 h5 => Bool.noConfusion (h4.symm.trans h5),
        fun h4 h5 => ⟨h4, h5⟩⟩

/-- Witness for C6: a premature blank inside the flooding table keeps the
state inside the table, and a row arriving after it is still collected. -/
theorem C6_witness :
    ((lineStep ⟨none, none, true, false, [], [], none⟩ "   ").inFlooding = true ∧
      (lineStep ⟨none, none, true, false, [], [], none⟩ "   ").flooded = []) ∧
    (runLines ["Node Flooding Summary", "   ", "A 1 2 0 0 3.5"]).flooded =
      [⟨"A", ⟨2, 0⟩, ⟨35, 1⟩⟩] :=
  ⟨(C6_blank_line_guard ⟨none, none, true, false, [], [], none⟩ "   " rfl (by decide)).2.1
      rfl rfl,
    by decide⟩

/-- C7: a line carrying the flooding-table start marker never resets the
flooding accumulator (nor the surcharge one) and (re)enters the flooding
state; concretely, two flooding sections separated by a blank line and a
repeated marker accumulate the rows of both sections. -/
theorem C7_marker_no_reset (s : PState) (line : String) (he : s.err = none)
    (hm : strContains line floodMarker = true) (hc : strContains line contLabel = false) :
    ((lineStep s line).flooded = s.flooded ∧ (lineStep s line).surcharged = s.surcharged ∧
      (lineStep s line).inFlooding = true) ∧
    (runLines ["Node Flooding Summary", "A 1 2 0 0 5.0", "", "Node Flooding Summary",
        "B 1 2 0 0 7.0"]).flooded =
      [⟨"A", ⟨2, 0⟩, ⟨50, 1⟩⟩, ⟨"B", ⟨2, 0⟩, ⟨70, 1⟩⟩] := by
  constructor
  · have hcs : contStep s line = s := by simp [contStep, hc]
    unfold lineStep
    rw [hcs]
    simp [he, hm]
  · decide

/-- Witness for C7: a repeated marker arriving with a nonempty accumulator
leaves it unchanged. -/
theorem C7_witness :
    (lineStep ⟨none, none, false, false, [⟨"A", ⟨2, 0⟩, ⟨50, 1⟩⟩], [], none⟩
        "Node Flooding Summary").flooded = [⟨"A", ⟨2, 0⟩, ⟨50, 1⟩⟩] ∧
    (lineStep ⟨none, none, false, false, [⟨"A", ⟨2, 0⟩, ⟨50, 1⟩⟩], [], none⟩
        "Node Flooding Summary").inFlooding = true :=
  ⟨((C7_marker_no_reset ⟨none, none, false, false, [⟨"A", ⟨2, 0⟩, ⟨50, 1⟩⟩], [], none⟩
      "Node Flooding Summary" rfl (by decide) (by decide)).1).1,
    ((C7_marker_no_reset ⟨none, none, false, false, [⟨"A", ⟨2, 0⟩, ⟨50, 1⟩⟩], [], none⟩
      "Node Flooding Summary" rfl (by decide) (by decide)).1).2.2⟩

/-- C2, counterexample: the claim quantifies over every input, but on this
input the second line's trailing token `5.0` parses as a float and the claim
would record it as the runoff figure; the invocation instead aborts on the
first label line (`junk`), returning a non-success outcome in which nothing
is recorded. -/
theorem C2_counterexample :
    (parse_swmm_results (some ["Continuity Error (%) .... junk",
      "Continuity Error (%) .... 5.0"]) none).isSuccess = false ∧
    strContains "Continuity Error (%) .... 5.0" contLabel = true ∧
    pyFloat ((pySplit "Continuity Error (%) .... 5.0").getLastD "") = some ⟨50, 1⟩ := by
  decide

/-- C3, counterexample: an input with one accepted flooding row on which the
invocation nevertheless returns no `top_flooded_nodes` at all, because a later
malformed continuity line aborts the pass. -/
theorem C3_counterexample :
    ((runLines ["Node Flooding Summary", "X 1.0 2.0 3.0 4.0 5.0",
        "Continuity Error (%) .... junk"]).flooded).length = 1 ∧
    parse_swmm_results (some ["Node Flooding Summary", "X 1.0 2.0 3.0 4.0 5.0",
        "Continuity Error (%) .... junk"]) none = .streamError "junk" := by
  decide

/-- C2 (amended): provided every line containing the continuity label has a
trailing token that parses as a float, the invocation succeeds, the first
such value is recorded as the runoff figure, the second as the routing
figure, and all later ones are ignored. -/
theorem C2_first_second_recorded (lines : List String) (inp : Option String)
    (h : ∀ l ∈ lines, strContains l contLabel = true →
      (pyFloat ((pySplit l).getLastD "")).isSome = true) :
    ∃ er, parse_swmm_results (some lines) inp = .success er ∧
      er.continuity_error_runoff_percent = (contValues lines).head? ∧
      er.continuity_error_routing_percent = (contValues lines).tail.head? := by
  have hf := cont_fold lines initState rfl h
  have he : (runLines lines).err = none := hf.1
  have h2 := hf.2
  rw [show initState.contRunoff = none from rfl, show initState.contRouting = none from rfl,
    contFill_none_none] at h2
  have hfst : (runLines lines).contRunoff = (contValues lines).head? := congrArg Prod.fst h2
  have hsnd : (runLines lines).contRouting = (contValues lines).tail.head? := congrArg Prod.snd h2
  rcases parse_some_cases lines inp with ⟨t, ht, -⟩ | ⟨-, er, hp⟩
  · rw [ht] at he
    exact Option.noConfusion he
  · obtain ⟨-, her⟩ := parse_success_eq hp
    refine ⟨er, hp, ?_, ?_⟩
    · rw [her]
      exact hfst
    · rw [her]
      exact hsnd

/-- Witness for C2: two continuity-label lines with trailing values `-0.029`
then `0.441` yield runoff `-0.029` and routing `0.441`. -/
theorem C2_witness :
    (∃ er, parse_swmm_results (some ["  Continuity Error (%) ..... -0.029",
        "  Continuity Error (%) ..... 0.441"]) none = .success er ∧
      er.continuity_error_runoff_percent =
        (contValues ["  Continuity Error (%) ..... -0.029",
          "  Continuity Error (%) ..... 0.441"]).head? ∧
      er.continuity_error_routing_percent =
        (contValues ["  Continuity Error (%) ..... -0.029",
          "  Continuity Error (%) ..... 0.441"]).tail.head?) ∧
    (contValues ["  Continuity Error (%) ..... -0.029",
      "  Continuity Error (%) ..... 0.441"]).head? = some ⟨-29, 3⟩ ∧
    (contValues ["  Continuity Error (%) ..... -0.029",
      "  Continuity Error (%) ..... 0.441"]).tail.head? = some ⟨441, 3⟩ :=
  ⟨C2_first_second_recorded _ none (by decide), by decide, by decide⟩

/-- C3 (amended): on every input on which the invocation succeeds, each
present ranked list is sorted descending by its key, has length at most 5,
draws all its entries from the accepted rows, and lists the rows of any one
key value as a prefix of their input-order occurrence list (stable ties). -/
theorem C3_top5_sorted_stable (lines : List String) (inp : Option String) (er : SwmmResult)
    (hp : parse_swmm_results (some lines) inp = .success er) :
    (∀ L, er.top_flooded_nodes = some L →
      L.Sorted (fun a b => b.totalFloodVol.toRat ≤ a.totalFloodVol.toRat) ∧
      L.length ≤ 5 ∧
      (∀ x ∈ L, x ∈ (runLines lines).flooded) ∧
      (∀ v : ℚ, (L.filter fun x => decide (x.totalFloodVol.toRat = v)) <+:
        ((runLines lines).flooded.filter fun x => decide (x.totalFloodVol.toRat = v)))) ∧
    (∀ M, er.top_surcharged_conduits = some M →
      M.Sorted (fun a b => b.hoursSurcharged.toRat ≤ a.hoursSurcharged.toRat) ∧
      M.length ≤ 5 ∧
      (∀ x ∈ M, x ∈ (runLines lines).surcharged) ∧
      (∀ v : ℚ, (M.filter fun x => decide (x.hoursSurcharged.toRat = v)) <+:
        ((runLines lines).surcharged.filter fun x => decide (x.hoursSurcharged.toRat = v)))) := by
  obtain ⟨-, her⟩ := parse_success_eq hp
  have htopF : er.top_flooded_nodes = if (runLines lines).flooded = [] then none
      else some ((sortFlood (runLines lines).flooded).take 5) := by rw [her]
  have htopS : er.top_surcharged_conduits = if (runLines lines).surcharged = [] then none
      else some ((sortSurch (runLines lines).surcharged).take 5) := by rw [her]
  constructor
  · intro L hL
    rw [htopF] at hL
    by_cases hfl : (runLines lines).flooded = []
    · rw [if_pos hfl] at hL
      exact Option.noConfusion hL
    · rw [if_neg hfl] at hL
      injection hL with hL
      subst hL
      have hs : (sortFlood ((runLines lines).flooded)).Sorted floodGe :=
        List.sorted_insertionSort floodGe _
      refine ⟨?_, List.length_take_le 5 _, ?_, ?_⟩
      · exact List.Pairwise.imp (fun h => PyFloat.le_rat.mp h)
          (hs.sublist (List.take_sublist 5 _))
      · intro x hx
        exact (List.mem_insertionSort floodGe).mp (List.take_subset 5 _ hx)
      · intro v
        have htp : (sortFlood ((runLines lines).flooded)).take 5 <+:
            sortFlood ((runLines lines).flooded) := ⟨_, List.take_append_drop 5 _⟩
        have hpre := htp.filter (fun x => decide (x.totalFloodVol.toRat = v))
        have hstb : (sortFlood ((runLines lines).flooded)).filter
            (fun x => decide (x.totalFloodVol.toRat = v)) =
            ((runLines lines).flooded).filter (fun x => decide (x.totalFloodVol.toRat = v)) := by
          unfold sortFlood
          apply filter_insertionSort
          intro x y hx hxy
          have hxv : x.totalFloodVol.toRat = v := of_decide_eq_true hx
          unfold floodGe at hxy
          rw [PyFloat.le_rat] at hxy
          have hlt : x.totalFloodVol.toRat < y.totalFloodVol.toRat := not_le.mp hxy
          apply decide_eq_false
          intro hy
          exact absurd (hxv.trans hy.symm) (ne_of_lt hlt)
        exact hstb ▸ hpre
  · intro M hM
    rw [htopS] at hM
    by_cases hsl : (runLines lines).surcharged = []
    · rw [if_pos hsl] at hM
      exact Option.noConfusion hM
    · rw [if_neg hsl] at hM
      injection hM with hM
      subst hM
      have hs : (sortSurch ((runLines lines).surcharged)).Sorted surchGe :=
        List.sorted_insertionSort surchGe _
      refine ⟨?_, List.length_take_le 5 _, ?_, ?_⟩
      · exact List.Pairwise.imp (fun h => PyFloat.le_rat.mp h)
          (hs.sublist (List.take_sublist 5 _))
      · intro x hx
        exact (List.mem_insertionSort surchGe).mp (List.take_subset 5 _ hx)
      · intro v
        have htp : (sortSurch ((runLines lines).surcharged)).take 5 <+:
            sortSurch ((runLines lines).surcharged) := ⟨_, List.take_append_drop 5 _⟩
        have hpre := htp.filter (fun x => decide (x.hoursSurcharged.toRat = v))
        have hstb : (sortSurch ((runLines lines).surcharged)).filter
            (fun x => decide (x.hoursSurcharged.toRat = v)) =
            ((runLines lines).surcharged).filter
              (fun x => decide (x.hoursSurcharged.toRat = v)) := by
          unfold sortSurch
          apply filter_insertionSort
          intro x y hx hxy
          have hxv : x.hoursSurcharged.toRat = v := of_decide_eq_true hx
          unfold surchGe at hxy
          rw [PyFloat.le_rat] at hxy
          have hlt : x.hoursSurcharged.toRat < y.hoursSurcharged.toRat := not_le.mp hxy
          apply decide_eq_false
          intro hy
          exact absurd (hxv.trans hy.symm) (ne_of_lt hlt)
        exact hstb ▸ hpre

/-- Witness for C3: a flooding table with a tie (`A` before `B`, both volume
2.0) and a larger row `C`, plus two surcharge rows; the top list is
`[C, A, B]`, sorted, within length 5. -/
theorem C3_witness :
    ([⟨"C", ⟨1, 0⟩, ⟨90, 1⟩⟩, ⟨"A", ⟨1, 0⟩, ⟨20, 1⟩⟩, ⟨"B", ⟨1, 0⟩, ⟨20, 1⟩⟩] :
        List FloodRec).Sorted (fun a b => b.totalFloodVol.toRat ≤ a.totalFloodVol.toRat) ∧
    ([⟨"C", ⟨1, 0⟩, ⟨90, 1⟩⟩, ⟨"A", ⟨1, 0⟩, ⟨20, 1⟩⟩, ⟨"B", ⟨1, 0⟩, ⟨20, 1⟩⟩] :
        List FloodRec).length ≤ 5 := by
  have h := (C3_top5_sorted_stable
    ["Node Flooding Summary", "A 1 1 0 0 2.0", "B 1 1 0 0 2.0", "C 1 1 0 0 9.0", "",
      "Conduit Surcharge Summary", "S 1.5 0 2.0 0", "T 0.5 0 1.0 0"] none
    ⟨none, none,
      some [⟨"C", ⟨1, 0⟩, ⟨90, 1⟩⟩, ⟨"A", ⟨1, 0⟩, ⟨20, 1⟩⟩, ⟨"B", ⟨1, 0⟩, ⟨20, 1⟩⟩],
      some [⟨"S", ⟨15, 1⟩, ⟨20, 1⟩⟩, ⟨"T", ⟨5, 1⟩, ⟨10, 1⟩⟩],
      [⟨"C", ⟨1, 0⟩, ⟨90, 1⟩⟩, ⟨"A", ⟨1, 0⟩, ⟨20, 1⟩⟩, ⟨"B", ⟨1, 0⟩, ⟨20, 1⟩⟩],
      [⟨"S", ⟨15, 1⟩, ⟨20, 1⟩⟩, ⟨"T", ⟨5, 1⟩, ⟨10, 1⟩⟩]⟩ (by decide)).1
    [⟨"C", ⟨1, 0⟩, ⟨90, 1⟩⟩, ⟨"A", ⟨1, 0⟩, ⟨20, 1⟩⟩, ⟨"B", ⟨1, 0⟩, ⟨20, 1⟩⟩] (by decide)
  exact ⟨h.1, h.2.1⟩

/-- C4 (amended): on a successful extraction a category with zero accepted
rows has its ranked DataFrame equal to `None` (absent) while its raw list is
the empty sequence; a category with at least one row gets a present ranked
list. -/
theorem C4_zero_rows_give_none (lines : List String) (inp : Option String) (er : SwmmResult)
    (hp : parse_swmm_results (some lines) inp = .success er) :
    ((runLines lines).flooded = [] →
      er.top_flooded_nodes = none ∧ er.raw_flooded_list = []) ∧
    ((runLines lines).surcharged = [] →
      er.top_surcharged_conduits = none ∧ er.raw_surcharged_list = []) ∧
    ((runLines lines).flooded ≠ [] → ∃ L, er.top_flooded_nodes = some L) ∧
    ((runLines lines).surcharged ≠ [] → ∃ M, er.top_surcharged_conduits = some M) := by
  obtain ⟨-, her⟩ := parse_success_eq hp
  subst her
  refine ⟨fun h => ?_, fun h => ?_, fun h => ?_, fun h => ?_⟩
  · constructor
    · simp [h]
    · simp [h, sortFlood]
  · constructor
    · simp [h]
    · simp [h, sortSurch]
  · exact ⟨(sortFlood (runLines lines).flooded).take 5, by simp [h]⟩
  · exact ⟨(sortSurch (runLines lines).surcharged).take 5, by simp [h]⟩

/-- Witness for C4: a report with one continuity line and no tables gives
`None` ranked lists and empty raw lists. -/
theorem C4_witness :
    (⟨some ⟨15, 1⟩, none, none, none, [], []⟩ : SwmmResult).top_flooded_nodes = none ∧
    (⟨some ⟨15, 1⟩, none, none, none, [], []⟩ : SwmmResult).raw_flooded_list = [] :=
  (C4_zero_rows_give_none ["Continuity Error (%) 1.5"] none
    ⟨some ⟨15, 1⟩, none, none, none, [], []⟩ (by decide)).1 (by decide)

/-- C4, counterexample: a report with continuity lines and no table markers
extracts successfully, but the two ranked categories are returned as `None`
(the `top_flooded_df = None` default of lines 92 and 99), not as empty
sequences; only the raw lists are empty. -/
theorem C4_counterexample :
    parse_swmm_results (some ["  Continuity Error (%) ..... -0.029",
      "  Continuity Error (%) ..... 0.441"]) none =
    .success ⟨some ⟨-29, 3⟩, some ⟨441, 3⟩, none, none, [], []⟩ := by
  decide
